import Mathlib

/-!
Verification of the moi-finance-hub ledger model: the dashboard metric
summarizer (`fetchMetrics` in `DashboardMetrics.tsx`) and the customer
list pagination (`CustomersTab.tsx`), embedded shallowly over lists.

Amounts are modelled as integers (the spec's test-fixture convention) and
timestamps as integer epoch milliseconds, matching the JavaScript
`Date.getTime()` arithmetic the source performs.
-/

namespace MoiFinance

/-- A row of the `transactions` table, with the fields the dashboard code
reads: signed `amount`, the user-supplied `event_date`, the system-assigned
`created_date` (both as epoch milliseconds) and the owning `customer_id`. -/
structure Transaction where
  amount : Int
  event_date : Int
  created_date : Int
  customer_id : String
deriving DecidableEq, Repr

/-- A row of the `customers` table, reduced to the field the summarizer's
customer-side logic uses (its identifier; `totalCustomers` only counts rows,
`activeCustomers` matches `customer_id` references against it). -/
structure Customer where
  id : String
deriving DecidableEq, Repr

/-- Milliseconds in one day: `24 * 60 * 60 * 1000` as in the source. -/
def msPerDay : Int := 24 * 60 * 60 * 1000

/-- The source's `now.getTime() - 7 * 24 * 60 * 60 * 1000`. -/
def oneWeekAgo (now : Int) : Int := now - 7 * msPerDay

/-- The source's `now.getTime() - 30 * 24 * 60 * 60 * 1000`. -/
def oneMonthAgo (now : Int) : Int := now - 30 * msPerDay

/-- The filter predicate `new Date(t.created_date) >= oneWeekAgo`. -/
def inWeekWindow (now : Int) (t : Transaction) : Bool :=
  oneWeekAgo now ≤ t.created_date

/-- The filter predicate `new Date(t.created_date) >= oneMonthAgo`. -/
def inMonthWindow (now : Int) (t : Transaction) : Bool :=
  oneMonthAgo now ≤ t.created_date

/-- The source's `.reduce((sum, t) => sum + Number(t.amount), 0)`. -/
def sumAmounts (ts : List Transaction) : Int :=
  ts.foldl (fun s t => s + t.amount) 0

/-- The source's `lastWeekAmount`: filter on the 7-day `created_date` window,
then reduce. -/
def lastWeekAmount (ts : List Transaction) (now : Int) : Int :=
  sumAmounts (ts.filter (inWeekWindow now))

/-- The source's `lastMonthAmount`: filter on the 30-day `created_date`
window, then reduce. -/
def lastMonthAmount (ts : List Transaction) (now : Int) : Int :=
  sumAmounts (ts.filter (inMonthWindow now))

/-- The source's `totalCustomers = customers?.length || 0`. -/
def totalCustomers (cs : List Customer) : Nat := cs.length

/-- The source's `new Set(transactions?.filter(...).map(t => t.customer_id))`:
the set of
customer ids appearing on transactions inside the 30-day window. -/
def activeCustomerIds (ts : List Transaction) (now : Int) : Finset String :=
  ((ts.filter (inMonthWindow now)).map (·.customer_id)).toFinset

/-- The source's `activeCustomers = activeCustomerIds.size`. -/
def activeCustomers (ts : List Transaction) (now : Int) : Nat :=
  (activeCustomerIds ts now).card

/-- The source's `creditAmount`: reduce of `t.amount` over transactions with
`amount > 0`. -/
def creditAmount (ts : List Transaction) : Int :=
  (ts.filter (fun t => 0 < t.amount)).foldl (fun s t => s + t.amount) 0

/-- The source's `debitAmount`: reduce of `Math.abs(t.amount)` over
transactions with
`amount < 0`. -/
def debitAmount (ts : List Transaction) : Int :=
  (ts.filter (fun t => t.amount < 0)).foldl (fun s t => s + |t.amount|) 0

/-- The `MetricsData` record assembled by `setMetrics`. -/
structure MetricsData where
  lastWeekAmount : Int
  lastMonthAmount : Int
  totalCustomers : Nat
  activeCustomers : Nat
  creditAmount : Int
  debitAmount : Int
deriving DecidableEq, Repr

/-- The pure computation performed by `fetchMetrics` on the two fetched
collections at computation instant `now`. -/
def fetchMetrics (cs : List Customer) (ts : List Transaction) (now : Int) :
    MetricsData where
  lastWeekAmount := lastWeekAmount ts now
  lastMonthAmount := lastMonthAmount ts now
  totalCustomers := totalCustomers cs
  activeCustomers := activeCustomers ts now
  creditAmount := creditAmount ts
  debitAmount := debitAmount ts

/-- The stored collections the summarizer reads. -/
structure DbState where
  customers : List Customer
  transactions : List Transaction
deriving DecidableEq, Repr

/-- One evaluation of the summarizer as a state transformer over the stored
collections: `fetchMetrics` only reads them (its writes go to component-local
display state), so the resulting state is the input state. -/
def fetchMetricsRun (s : DbState) (now : Int) : MetricsData × DbState :=
  (fetchMetrics s.customers s.transactions now, s)

/-- Modelled from the spec: `netBalance(transactions) = creditTotal − debitTotal`
(§4.1 Ledger Aggregator); the aggregator itself is described by the spec but
has no single function in the shipped source, whose `creditAmount` and
`debitAmount` in `DashboardMetrics.tsx` are the same filters and reductions. -/
def netBalance (ts : List Transaction) : Int :=
  creditAmount ts - debitAmount ts

/-- Helper: folding `(s, t) ↦ s + t.amount` from `a` is `a` plus the map-sum. -/
theorem foldl_add_amount (ts : List Transaction) (a : Int) :
    ts.foldl (fun s t => s + t.amount) a = a + (ts.map (·.amount)).sum := by
  induction ts generalizing a with
  | nil => simp
  | cons t ts ih => simp [List.foldl_cons, ih (a + t.amount), add_assoc]

/-- Helper: folding `(s, t) ↦ s + |t.amount|` from `a` is `a` plus the map-sum. -/
theorem foldl_add_abs_amount (ts : List Transaction) (a : Int) :
    ts.foldl (fun s t => s + |t.amount|) a
      = a + (ts.map (fun t => |t.amount|)).sum := by
  induction ts generalizing a with
  | nil => simp
  | cons t ts ih => simp [List.foldl_cons, ih (a + |t.amount|), add_assoc]

/-- Helper: the reduce in the source equals the plain sum of mapped amounts. -/
theorem sumAmounts_eq_sum_map (ts : List Transaction) :
    sumAmounts ts = (ts.map (·.amount)).sum := by
  simpa using foldl_add_amount ts 0

/-- Helper: `creditAmount` as a map-sum over the positive-amount filter. -/
theorem creditAmount_eq_sum_map (ts : List Transaction) :
    creditAmount ts = ((ts.filter (fun t => 0 < t.amount)).map (·.amount)).sum := by
  simpa [creditAmount] using foldl_add_amount (ts.filter (fun t => 0 < t.amount)) 0

/-- Helper: `debitAmount` as a map-sum over the negative-amount filter. -/
theorem debitAmount_eq_sum_map (ts : List Transaction) :
    debitAmount ts
      = ((ts.filter (fun t => t.amount < 0)).map (fun t => |t.amount|)).sum := by
  simpa [debitAmount] using foldl_add_abs_amount (ts.filter (fun t => t.amount < 0)) 0

/-- C3: on empty customer and transaction collections the summarizer yields
zero in all six fields, for every computation instant, with no failure case. -/
theorem fetchMetrics_empty (now : Int) :
    fetchMetrics [] [] now =
      { lastWeekAmount := 0, lastMonthAmount := 0, totalCustomers := 0,
        activeCustomers := 0, creditAmount := 0, debitAmount := 0 } := rfl

/-- C2: the net balance is creditTotal minus debitTotal by the spec's own
definition, and this difference equals the plain sum of the signed amounts. -/
theorem netBalance_eq_sum_signed (ts : List Transaction) :
    netBalance ts = creditAmount ts - debitAmount ts ∧
      netBalance ts = (ts.map (·.amount)).sum := by
  refine ⟨rfl, ?_⟩
  rw [netBalance, creditAmount_eq_sum_map, debitAmount_eq_sum_map]
  induction ts with
  | nil => simp
  | cons t ts ih =>
    rcases lt_trichotomy t.amount 0 with h | h | h
    · simp only [List.filter_cons, List.map_cons, List.sum_cons]
      rw [if_neg (by simpa using not_lt.mpr h.le), if_pos (by simpa using h)]
      simp only [List.map_cons, List.sum_cons]
      rw [abs_of_neg h]
      omega
    · simp only [List.filter_cons]
      rw [if_neg (by simp [h]), if_neg (by simp [h])]
      simp [h, ih]
    · simp only [List.filter_cons, List.map_cons, List.sum_cons]
      rw [if_pos (by simpa using h), if_neg (by simpa using not_lt.mpr h.le)]
      simp only [List.map_cons, List.sum_cons]
      omega

/-- C8: the global credit total and debit total are both non-negative, for
every transaction list. -/
theorem creditAmount_debitAmount_nonneg (ts : List Transaction) :
    0 ≤ creditAmount ts ∧ 0 ≤ debitAmount ts := by
  constructor
  · rw [creditAmount_eq_sum_map]
    apply List.sum_nonneg
    intro a ha
    simp only [List.mem_map, List.mem_filter] at ha
    obtain ⟨t, ⟨_, ht⟩, rfl⟩ := ha
    exact le_of_lt (by simpa using ht)
  · rw [debitAmount_eq_sum_map]
    apply List.sum_nonneg
    intro a ha
    simp only [List.mem_map, List.mem_filter] at ha
    obtain ⟨t, _, rfl⟩ := ha
    exact abs_nonneg _

/-- C4: the window boundaries are inclusive — a transaction whose
`created_date` is exactly `now − 7 days` is counted in `lastWeekAmount`, and
one at exactly `now − 30 days` is counted in `lastMonthAmount`. -/
theorem window_boundary_inclusive (ts : List Transaction) (now : Int)
    (t u : Transaction) (hw : t.created_date = oneWeekAgo now)
    (hm : u.created_date = oneMonthAgo now) :
    lastWeekAmount (t :: ts) now = t.amount + lastWeekAmount ts now ∧
      lastMonthAmount (u :: ts) now = u.amount + lastMonthAmount ts now := by
  constructor
  · rw [lastWeekAmount, List.filter_cons,
      if_pos (by simp [inWeekWindow, hw]), sumAmounts, List.foldl_cons,
      foldl_add_amount, lastWeekAmount, sumAmounts, foldl_add_amount]
    omega
  · rw [lastMonthAmount, List.filter_cons,
      if_pos (by simp [inMonthWindow, hm]), sumAmounts, List.foldl_cons,
      foldl_add_amount, lastMonthAmount, sumAmounts, foldl_add_amount]
    omega

/-- Witness for C4 at a concrete boundary input: `now = 0`, one transaction
created exactly 7 days earlier and one exactly 30 days earlier. -/
theorem window_boundary_inclusive_witness :
    lastWeekAmount [⟨5, 0, -604800000, "c1"⟩] 0
        = 5 + lastWeekAmount [] 0 ∧
      lastMonthAmount [⟨7, 0, -2592000000, "c2"⟩] 0
        = 7 + lastMonthAmount [] 0 :=
  window_boundary_inclusive [] 0 ⟨5, 0, -604800000, "c1"⟩
    ⟨7, 0, -2592000000, "c2"⟩ (by decide) (by decide)

/-- C7: the transactions feeding the week sum are a sublist (hence a subset,
in the same order) of those feeding the month sum, for any fixed transaction
list and instant. -/
theorem week_window_subset_month_window (ts : List Transaction) (now : Int) :
    (ts.filter (inWeekWindow now)).Sublist (ts.filter (inMonthWindow now)) ∧
      ∀ t, t ∈ ts.filter (inWeekWindow now) → t ∈ ts.filter (inMonthWindow now) := by
  have hpq : ∀ t, inWeekWindow now t → inMonthWindow now t := by
    intro t ht
    simp only [inWeekWindow, oneWeekAgo, msPerDay, decide_eq_true_eq] at ht
    simp only [inMonthWindow, oneMonthAgo, msPerDay, decide_eq_true_eq]
    omega
  have hsub := List.monotone_filter_right ts hpq
  exact ⟨hsub, fun t ht => hsub.mem ht⟩

/-- Witness for C7: a concrete transaction inside the week window is also in
the month-window filtrate. -/
theorem week_window_subset_month_window_witness :
    ([(⟨3, 0, -1000, "c"⟩ : Transaction)].filter (inWeekWindow 0)).Sublist
        ([(⟨3, 0, -1000, "c"⟩ : Transaction)].filter (inMonthWindow 0)) ∧
      (⟨3, 0, -1000, "c"⟩ : Transaction)
        ∈ [(⟨3, 0, -1000, "c"⟩ : Transaction)].filter (inMonthWindow 0) :=
  ⟨(week_window_subset_month_window [⟨3, 0, -1000, "c"⟩] 0).1,
    (week_window_subset_month_window [⟨3, 0, -1000, "c"⟩] 0).2
      ⟨3, 0, -1000, "c"⟩ (by decide)⟩

/-- The claim's reading of §3's "event-attribution timestamp": the windowed
week sum taken over the user-supplied `event_date`, stated for comparison
with the code's `created_date`-based `lastWeekAmount`. -/
def lastWeekAmountByEventDate (ts : List Transaction) (now : Int) : Int :=
  ((ts.filter (fun t => oneWeekAgo now ≤ t.event_date)).map (·.amount)).sum

/-- The month-window analogue of `lastWeekAmountByEventDate`. -/
def lastMonthAmountByEventDate (ts : List Transaction) (now : Int) : Int :=
  ((ts.filter (fun t => oneMonthAgo now ≤ t.event_date)).map (·.amount)).sum

/-- C1 counterexample: a transaction back-dated into the last week
(`event_date = now`) but created long ago is excluded from the code's
`lastWeekAmount`, which therefore differs from the sum over the
event-attribution window the claim describes. -/
theorem lastWeekAmount_ne_eventDate_sum :
    lastWeekAmount [⟨100, 0, -100000000000, "c"⟩] 0 = 0 ∧
      lastWeekAmountByEventDate [⟨100, 0, -100000000000, "c"⟩] 0 = 100 ∧
      lastWeekAmount [⟨100, 0, -100000000000, "c"⟩] 0
        ≠ lastWeekAmountByEventDate [⟨100, 0, -100000000000, "c"⟩] 0 := by
  refine ⟨rfl, rfl, ?_⟩
  decide

/-- C1 amended: `lastWeekAmount` is the sum of signed amounts over the
transactions whose `created_date` (the system creation timestamp, not the
user-editable `event_date`) is at or after `now − 7 days`, and
`lastMonthAmount` is the same sum over the 30-day `created_date` window. -/
theorem lastWeekAmount_lastMonthAmount_by_created_date
    (ts : List Transaction) (now : Int) :
    lastWeekAmount ts now
        = ((ts.filter (fun t => oneWeekAgo now ≤ t.created_date)).map
            (·.amount)).sum ∧
      lastMonthAmount ts now
        = ((ts.filter (fun t => oneMonthAgo now ≤ t.created_date)).map
            (·.amount)).sum := by
  constructor
  · rw [lastWeekAmount, sumAmounts_eq_sum_map]
    rfl
  · rw [lastMonthAmount, sumAmounts_eq_sum_map]
    rfl

/-- The spec's formulation of activity: the distinct customer ids that own at
least one transaction inside the last-30-day window. -/
def customersActiveInMonth (ts : List Transaction) (now : Int) : Finset String :=
  (ts.map (·.customer_id)).toFinset.filter
    (fun c => ts.any (fun t => t.customer_id == c && inMonthWindow now t))

/-- C5: `activeCustomers` is the cardinality of the set of distinct customers
having at least one transaction in the 30-day window — customers are counted
once however many qualifying transactions they have, and the amount (zero
included) plays no role. -/
theorem activeCustomers_eq_card_active_set (ts : List Transaction) (now : Int) :
    activeCustomers ts now = (customersActiveInMonth ts now).card := by
  unfold activeCustomers
  congr 1
  ext c
  simp only [activeCustomerIds, customersActiveInMonth, List.mem_toFinset,
    Finset.mem_filter, List.mem_map, List.mem_filter, List.any_eq_true,
    Bool.and_eq_true, beq_iff_eq]
  constructor
  · rintro ⟨t, ⟨ht, hw⟩, rfl⟩
    exact ⟨⟨t, ht, rfl⟩, t, ht, rfl, hw⟩
  · rintro ⟨_, t, ht, rfl, hw⟩
    exact ⟨t, ⟨ht, hw⟩, rfl⟩

/-- C6: when every transaction's customer reference resolves to a customer in
the customers collection, the active-customer count is at most the total
customer count. -/
theorem activeCustomers_le_totalCustomers
    (cs : List Customer) (ts : List Transaction) (now : Int)
    (h : ∀ t ∈ ts, t.customer_id ∈ cs.map Customer.id) :
    activeCustomers ts now ≤ totalCustomers cs := by
  have hsub : activeCustomerIds ts now ⊆ (cs.map Customer.id).toFinset := by
    intro c hc
    simp only [activeCustomerIds, List.mem_toFinset, List.mem_map,
      List.mem_filter] at hc
    obtain ⟨t, ⟨ht, _⟩, rfl⟩ := hc
    exact List.mem_toFinset.mpr (h t ht)
  calc activeCustomers ts now
      ≤ (cs.map Customer.id).toFinset.card := Finset.card_le_card hsub
    _ ≤ (cs.map Customer.id).length := List.toFinset_card_le _
    _ = totalCustomers cs := by simp [totalCustomers]

/-- Witness for C6: one customer, one resolving in-window transaction. -/
theorem activeCustomers_le_totalCustomers_witness :
    (∀ t ∈ [(⟨1, 0, 0, "a"⟩ : Transaction)],
        t.customer_id ∈ [(⟨"a"⟩ : Customer)].map Customer.id) ∧
      activeCustomers [(⟨1, 0, 0, "a"⟩ : Transaction)] 0
        ≤ totalCustomers [(⟨"a"⟩ : Customer)] :=
  ⟨by decide,
    activeCustomers_le_totalCustomers [⟨"a"⟩] [⟨1, 0, 0, "a"⟩] 0 (by decide)⟩

/-- C9: the summarizer is a pure read — one evaluation leaves the stored
collections unchanged, and a second evaluation on the resulting state at the
same instant returns the identical six-field record. -/
theorem fetchMetricsRun_idempotent (s : DbState) (now : Int) :
    (fetchMetricsRun s now).2 = s ∧
      (fetchMetricsRun ((fetchMetricsRun s now).2) now).1
        = (fetchMetricsRun s now).1 :=
  ⟨rfl, rfl⟩

/-- A row of the customers list as `CustomersTab.tsx` holds it, reduced to
the fields its filter reads. -/
structure CustomerRow where
  id : String
  firstName : String
  lastName : String
  villageName : String
  pageNo : Nat
deriving DecidableEq, Repr

/-- The `filters` state object of `CustomersTab.tsx` (all five are text
inputs, `pageNo` included). -/
structure CustomerFilters where
  id : String
  firstName : String
  lastName : String
  villageName : String
  pageNo : String
deriving DecidableEq, Repr

/-- JavaScript `String.prototype.includes` on character lists: the pattern
occurs contiguously somewhere in the string. -/
def charsContain (pat : List Char) : List Char → Bool
  | [] => pat.isEmpty
  | c :: rest => pat.isPrefixOf (c :: rest) || charsContain pat rest

/-- JavaScript `s.includes(pat)`. -/
def jsIncludes (s pat : String) : Bool := charsContain pat.data s.data

/-- The predicate of `customers.filter((customer) => ...)`: case-insensitive
substring match on id and the three name fields, and, when the page-number
filter is non-empty, substring match on the decimal rendering of `pageNo`. -/
def matchesFilters (f : CustomerFilters) (c : CustomerRow) : Bool :=
  jsIncludes c.id.toLower f.id.toLower &&
  jsIncludes c.firstName.toLower f.firstName.toLower &&
  jsIncludes c.lastName.toLower f.lastName.toLower &&
  jsIncludes c.villageName.toLower f.villageName.toLower &&
  (f.pageNo == "" || jsIncludes (toString c.pageNo) f.pageNo)

/-- The source's `const itemsPerPage = 10`. -/
def itemsPerPage : Nat := 10

/-- The source's `filteredCustomers`. -/
def filteredCustomers (cs : List CustomerRow) (f : CustomerFilters) :
    List CustomerRow :=
  cs.filter (matchesFilters f)

/-- JavaScript `Array.prototype.slice(start, stop)` for non-negative
indices. -/
def jsSlice {α : Type} (l : List α) (start stop : Nat) : List α :=
  (l.drop start).take (stop - start)

/-- The source's `paginatedCustomers = filteredCustomers.slice(startIndex,
startIndex + itemsPerPage)` with `startIndex = (currentPage - 1) *
itemsPerPage`. -/
def paginatedCustomers (cs : List CustomerRow) (f : CustomerFilters)
    (currentPage : Nat) : List CustomerRow :=
  jsSlice (filteredCustomers cs f) ((currentPage - 1) * itemsPerPage)
    ((currentPage - 1) * itemsPerPage + itemsPerPage)

/-- C10: for any customer list, filter state and page `p ≥ 1`, the displayed
page is the contiguous slice of the filtered list from index `(p − 1) × 10`
up to but excluding `p × 10`: it equals drop-then-take, holds at most 10
rows, and its `i`-th entry is the filtered list's `(p − 1) × 10 + i`-th
entry, so order is preserved. -/
theorem paginatedCustomers_is_page_slice (cs : List CustomerRow)
    (f : CustomerFilters) (p : Nat) (hp : 1 ≤ p) :
    paginatedCustomers cs f p
        = ((filteredCustomers cs f).drop ((p - 1) * 10)).take (p * 10 - (p - 1) * 10) ∧
      (paginatedCustomers cs f p).length ≤ 10 ∧
      ∀ i : Nat, i < (paginatedCustomers cs f p).length →
        (paginatedCustomers cs f p)[i]?
          = (filteredCustomers cs f)[(p - 1) * 10 + i]? := by
  have hstop : (p - 1) * 10 + 10 = p * 10 := by omega
  have heq : paginatedCustomers cs f p
      = ((filteredCustomers cs f).drop ((p - 1) * 10)).take 10 := by
    simp [paginatedCustomers, jsSlice, itemsPerPage]
  refine ⟨?_, ?_, ?_⟩
  · rw [heq]
    congr 1
    omega
  · rw [heq]
    exact (List.length_take 10 _).trans_le (min_le_left _ _)
  · intro i hi
    have hlen : i < 10 := by
      have := heq ▸ hi
      simpa using lt_of_lt_of_le this
        ((List.length_take 10 _).trans_le (min_le_left _ _))
    rw [heq, List.getElem?_take, if_pos hlen, List.getElem?_drop]

/-- Witness for C10 at page 1 on a two-row list with empty filters. -/
theorem paginatedCustomers_is_page_slice_witness :
    (1 : Nat) ≤ 1 ∧
      (paginatedCustomers
          [⟨"a", "x", "y", "v", 1⟩, ⟨"b", "x", "y", "v", 2⟩] ⟨"", "", "", "", ""⟩ 1
        = (((filteredCustomers
              [⟨"a", "x", "y", "v", 1⟩, ⟨"b", "x", "y", "v", 2⟩]
              ⟨"", "", "", "", ""⟩).drop ((1 - 1) * 10)).take (1 * 10 - (1 - 1) * 10)) ∧
      (paginatedCustomers
          [⟨"a", "x", "y", "v", 1⟩, ⟨"b", "x", "y", "v", 2⟩] ⟨"", "", "", "", ""⟩ 1).length ≤ 10 ∧
      ∀ i : Nat, i < (paginatedCustomers
          [⟨"a", "x", "y", "v", 1⟩, ⟨"b", "x", "y", "v", 2⟩] ⟨"", "", "", "", ""⟩ 1).length →
        (paginatedCustomers
          [⟨"a", "x", "y", "v", 1⟩, ⟨"b", "x", "y", "v", 2⟩] ⟨"", "", "", "", ""⟩ 1)[i]?
          = (filteredCustomers
              [⟨"a", "x", "y", "v", 1⟩, ⟨"b", "x", "y", "v", 2⟩]
              ⟨"", "", "", "", ""⟩)[(1 - 1) * 10 + i]?) :=
  ⟨le_refl 1,
    paginatedCustomers_is_page_slice
      [⟨"a", "x", "y", "v", 1⟩, ⟨"b", "x", "y", "v", 2⟩]
      ⟨"", "", "", "", ""⟩ 1 (le_refl 1)⟩

end MoiFinance
